import Mathlib

/-!
# Verification of the nemu CPU core

A shallow embedding of the `nemu_core` crate: the memory cursor
(`MemIterator` in `cpu.rs`), the instruction decoder (`instr.rs`), and the
CPU execution step (`cpu.rs`).  Machine integers are modelled as `Nat` with
explicit reductions (`% 2^32` for `u32` wrapping adds and casts, `% 256`
for `u8` contents); a Rust slice-index panic is modelled by `Option`
(`none` = panic).
-/

namespace Nemu

/-- `MAX_MEM` from `cpu.rs`: the fixed memory size (256 MiB). -/
def MAX_MEM : Nat := 0x10000000

/-- `u32::wrapping_add`. -/
def u32WrapAdd (a b : Nat) : Nat := (a + b) % 2 ^ 32

/-- `usize::wrapping_add` (indices in `MemIterator`). -/
def usizeWrapAdd (a b : Nat) : Nat := (a + b) % 2 ^ 64

/-- A Rust `&[u8]`: a length plus the byte at each index.  Cells hold `u8`
values, which the accessor reflects with `% 256`. -/
structure MemSlice where
  len : Nat
  bytes : Nat → Nat

/-- Indexing `slice[i]`: `some` byte when in bounds, `none` = panic. -/
def MemSlice.get (m : MemSlice) (i : Nat) : Option Nat :=
  if i < m.len then some (m.bytes i % 256) else none

/-- The cursor state of `MemIterator` (`cpu.rs`): current index and bytes
travelled; the memory slice is passed to each read. -/
structure MemIterator where
  index : Nat
  travelled : Nat
deriving DecidableEq

/-- `MemIterator::new(start, mem)`. -/
def MemIterator.new (start : Nat) : MemIterator := ⟨start, 0⟩

/-- `MemIterator::next8`: wrap-check the current index against the length,
read one byte, advance index and travelled by 1. -/
def MemIterator.next8 (it : MemIterator) (m : MemSlice) : Option (Nat × MemIterator) :=
  let index := if it.index ≥ m.len then 0 else it.index
  match m.get index with
  | some v => some (v, ⟨index + 1, it.travelled + 1⟩)
  | none => none

/-- `MemIterator::next16`: wrap-check once at the start, then read the two
bytes at `index.wrapping_add(0)` and `index.wrapping_add(1)` (little
endian); each individual access can still go out of bounds (= `none`). -/
def MemIterator.next16 (it : MemIterator) (m : MemSlice) : Option (Nat × MemIterator) :=
  let index := if it.index ≥ m.len then 0 else it.index
  match m.get (usizeWrapAdd index 0) with
  | none => none
  | some b0 =>
    match m.get (usizeWrapAdd index 1) with
    | none => none
    | some b1 =>
      some (b0 ||| (b1 <<< 8), ⟨index + 2, it.travelled + 2⟩)

/-- `MemIterator::next32`: wrap-check once at the start, then read four
little-endian bytes at offsets 0..3 via `wrapping_add`. -/
def MemIterator.next32 (it : MemIterator) (m : MemSlice) : Option (Nat × MemIterator) :=
  let index := if it.index ≥ m.len then 0 else it.index
  match m.get (usizeWrapAdd index 0) with
  | none => none
  | some b0 =>
    match m.get (usizeWrapAdd index 1) with
    | none => none
    | some b1 =>
      match m.get (usizeWrapAdd index 2) with
      | none => none
      | some b2 =>
        match m.get (usizeWrapAdd index 3) with
        | none => none
        | some b3 =>
          some (b0 ||| (b1 <<< 8) ||| (b2 <<< 16) ||| (b3 <<< 24),
                ⟨index + 4, it.travelled + 4⟩)

/-- The `Register` enum from `cpu.rs`. -/
inductive Register where
  | A
  | B
  | X
  | Y
  | Ip
deriving DecidableEq

/-- `Register::try_from_id`: ids 0-3 map to A,B,X,Y; anything else is a
decode error (message formatting elided). -/
def Register.tryFromId (id : Nat) : Except String Register :=
  match id with
  | 0x0 => .ok .A
  | 0x1 => .ok .B
  | 0x2 => .ok .X
  | 0x3 => .ok .Y
  | _ => .error "Got invalid register id"

/-- The `Move` enum from `instr.rs` (ten addressing/width shapes). -/
inductive Move where
  | RegToReg (src dst : Register)
  | RegToMem32 (reg : Register) (addr : Nat)
  | RegToMem16 (reg : Register) (addr : Nat)
  | RegToMem8 (reg : Register) (addr : Nat)
  | MemToReg32 (addr : Nat) (reg : Register)
  | MemToReg16 (addr : Nat) (reg : Register)
  | MemToReg8 (addr : Nat) (reg : Register)
  | MemToMem32 (src dst : Nat)
  | MemToMem16 (src dst : Nat)
  | MemToMem8 (src dst : Nat)
deriving DecidableEq

/-- The `Instruction` enum from `instr.rs`. -/
inductive Instruction where
  | Move (mv : Move)
  | Halt
deriving DecidableEq

/-- `ParsedInstruction` from `instr.rs`: the decoded instruction plus
`delta_ip` (a `u32`). -/
structure ParsedInstruction where
  instr : Instruction
  delta_ip : Nat
deriving DecidableEq

/-- The body of `Move::read` after `let move_group = iter.next8()`: the
two-level match on shape bits `(move_group & 0xC0) >> 6` and width bits
`(move_group & 0x30) >> 4`.  The `unreachable!` arms of the source's width
matches are modelled as `none`; `delta_ip` is `iter.travelled() as u32`. -/
def Move.readGroup (move_group : Nat) (it : MemIterator) (m : MemSlice) :
    Option (Except String ParsedInstruction) :=
  match (move_group &&& 0xC0) >>> 6 with
  | 0 =>
    match it.next8 m with
    | none => none
    | some (operand_src, it) =>
      match it.next8 m with
      | none => none
      | some (operand_dest, it) =>
        match Register.tryFromId operand_src with
        | .error e => some (.error e)
        | .ok reg_src =>
          match Register.tryFromId operand_dest with
          | .error e => some (.error e)
          | .ok reg_dst =>
            some (.ok ⟨.Move (.RegToReg reg_src reg_dst), it.travelled % 2 ^ 32⟩)
  | 1 =>
    match it.next8 m with
    | none => none
    | some (b, it) =>
      match Register.tryFromId b with
      | .error e => some (.error e)
      | .ok reg_src =>
        match it.next32 m with
        | none => none
        | some (addr_dst, it) =>
          match (move_group &&& 0x30) >>> 4 with
          | 0 => some (.ok ⟨.Move (.RegToMem8 reg_src addr_dst), it.travelled % 2 ^ 32⟩)
          | 1 => some (.ok ⟨.Move (.RegToMem16 reg_src addr_dst), it.travelled % 2 ^ 32⟩)
          | 2 => some (.ok ⟨.Move (.RegToMem32 reg_src addr_dst), it.travelled % 2 ^ 32⟩)
          | 3 => some (.ok ⟨.Move (.RegToMem32 reg_src addr_dst), it.travelled % 2 ^ 32⟩)
          | _ => none
  | 2 =>
    match it.next32 m with
    | none => none
    | some (addr_src, it) =>
      match it.next8 m with
      | none => none
      | some (b, it) =>
        match Register.tryFromId b with
        | .error e => some (.error e)
        | .ok reg_dst =>
          match (move_group &&& 0x30) >>> 4 with
          | 0 => some (.ok ⟨.Move (.MemToReg8 addr_src reg_dst), it.travelled % 2 ^ 32⟩)
          | 1 => some (.ok ⟨.Move (.MemToReg16 addr_src reg_dst), it.travelled % 2 ^ 32⟩)
          | 2 => some (.ok ⟨.Move (.MemToReg32 addr_src reg_dst), it.travelled % 2 ^ 32⟩)
          | 3 => some (.ok ⟨.Move (.MemToReg32 addr_src reg_dst), it.travelled % 2 ^ 32⟩)
          | _ => none
  | 3 =>
    match it.next32 m with
    | none => none
    | some (addr_src, it) =>
      match it.next32 m with
      | none => none
      | some (addr_dst, it) =>
        match (move_group &&& 0x30) >>> 4 with
        | 0 => some (.ok ⟨.Move (.MemToMem8 addr_src addr_dst), it.travelled % 2 ^ 32⟩)
        | 1 => some (.ok ⟨.Move (.MemToMem16 addr_src addr_dst), it.travelled % 2 ^ 32⟩)
        | 2 => some (.ok ⟨.Move (.MemToMem32 addr_src addr_dst), it.travelled % 2 ^ 32⟩)
        | 3 => some (.ok ⟨.Move (.MemToMem32 addr_src addr_dst), it.travelled % 2 ^ 32⟩)
        | _ => none
  | _ => some (.error "Should have gotten valid move opcode")

/-- `Move::read`: read the move-group byte, then dispatch on its bits. -/
def Move.read (it : MemIterator) (m : MemSlice) :
    Option (Except String ParsedInstruction) :=
  match it.next8 m with
  | none => none
  | some (move_group, it) => Move.readGroup move_group it m

/-- `Instruction::read`: read the group byte; `0x0` is Halt with
`delta_ip = 1`, `0x1` delegates to `Move::read` (same iterator, so its
`travelled()` already includes the group byte) and adds 1. -/
def Instruction.read (it : MemIterator) (m : MemSlice) :
    Option (Except String ParsedInstruction) :=
  match it.next8 m with
  | none => none
  | some (group_value, it) =>
    match group_value with
    | 0x0 => some (.ok ⟨.Halt, 1⟩)
    | 0x1 =>
      match Move.read it m with
      | none => none
      | some (.error e) => some (.error e)
      | some (.ok parsed) => some (.ok ⟨parsed.instr, parsed.delta_ip + 1⟩)
    | _ => some (.error "Should have gotten a valid group value")

/-- The generic `Bitflag<T>` container (`bitflag.rs`), instantiated at an
unsigned integer type whose values live in `Nat` (with `T::default() = 0`). -/
structure Bitflag where
  value : Nat
deriving DecidableEq

/-- `Bitflag::contains`: `(self.value & v) != T::default()`. -/
def Bitflag.contains (f : Bitflag) (v : Nat) : Bool :=
  (f.value &&& v) != 0

/-- `BitOrAssign`: `self.value |= rhs`. -/
def Bitflag.orAssign (f : Bitflag) (rhs : Nat) : Bitflag :=
  ⟨f.value ||| rhs⟩

/-- `BitAndAssign`: `self.value &= rhs`. -/
def Bitflag.andAssign (f : Bitflag) (rhs : Nat) : Bitflag :=
  ⟨f.value &&& rhs⟩

/-- `BitXorAssign`: `self.value ^= rhs`. -/
def Bitflag.xorAssign (f : Bitflag) (rhs : Nat) : Bitflag :=
  ⟨f.value ^^^ rhs⟩

/-- `CpuRegisters` from `cpu.rs`: five `u32` registers plus the flag set. -/
structure CpuRegisters where
  instruction_pointer : Nat
  a : Nat
  b : Nat
  x : Nat
  y : Nat
  flags : Bitflag

/-- The `Cpu`: the register file plus the `MAX_MEM`-byte memory block
(cells indexed below `MAX_MEM`; each holds a `u8`). -/
structure Cpu where
  registers : CpuRegisters
  mem : Nat → Nat

/-- The CPU memory viewed as the slice `self.mem.as_slice()`. -/
def Cpu.memSlice (c : Cpu) : MemSlice := ⟨MAX_MEM, c.mem⟩

/-- `Cpu::get_reg`. -/
def Cpu.get_reg (c : Cpu) (reg : Register) : Nat :=
  match reg with
  | .A => c.registers.a
  | .B => c.registers.b
  | .X => c.registers.x
  | .Y => c.registers.y
  | .Ip => c.registers.instruction_pointer

/-- `Cpu::set_reg32`: full overwrite of the selected register. -/
def Cpu.set_reg32 (c : Cpu) (reg : Register) (value : Nat) : Cpu :=
  match reg with
  | .A => { c with registers.a := value }
  | .B => { c with registers.b := value }
  | .X => { c with registers.x := value }
  | .Y => { c with registers.y := value }
  | .Ip => { c with registers.instruction_pointer := value }

/-- `Cpu::set_reg16`: merge a `u16` value into the low half, preserving
bits 16-31. -/
def Cpu.set_reg16 (c : Cpu) (reg : Register) (value : Nat) : Cpu :=
  match reg with
  | .A => { c with registers.a := (c.registers.a &&& 0xFFFF0000) ||| value }
  | .B => { c with registers.b := (c.registers.b &&& 0xFFFF0000) ||| value }
  | .X => { c with registers.x := (c.registers.x &&& 0xFFFF0000) ||| value }
  | .Y => { c with registers.y := (c.registers.y &&& 0xFFFF0000) ||| value }
  | .Ip => { c with registers.instruction_pointer :=
              (c.registers.instruction_pointer &&& 0xFFFF0000) ||| value }

/-- `Cpu::set_reg8`: merge a `u8` value into the low byte, preserving
bits 8-31. -/
def Cpu.set_reg8 (c : Cpu) (reg : Register) (value : Nat) : Cpu :=
  match reg with
  | .A => { c with registers.a := (c.registers.a &&& 0xFFFFFF00) ||| value }
  | .B => { c with registers.b := (c.registers.b &&& 0xFFFFFF00) ||| value }
  | .X => { c with registers.x := (c.registers.x &&& 0xFFFFFF00) ||| value }
  | .Y => { c with registers.y := (c.registers.y &&& 0xFFFFFF00) ||| value }
  | .Ip => { c with registers.instruction_pointer :=
              (c.registers.instruction_pointer &&& 0xFFFFFF00) ||| value }

/-- One Rust store `mem[i] = v`: `some` updated array when `i` is in
bounds, `none` = index-out-of-bounds panic (no modulo is applied). -/
def memStore (mem : Nat → Nat) (i v : Nat) : Option (Nat → Nat) :=
  if i < MAX_MEM then some (fun j => if j = i then v else mem j) else none

/-- `Cpu::read_mem32`: a fresh cursor at `addr as usize`, one `next32`. -/
def Cpu.read_mem32 (c : Cpu) (addr : Nat) : Option Nat :=
  match (MemIterator.new addr).next32 c.memSlice with
  | some (v, _) => some v
  | none => none

/-- `Cpu::read_mem16`: a fresh cursor at `addr as usize`, one `next16`. -/
def Cpu.read_mem16 (c : Cpu) (addr : Nat) : Option Nat :=
  match (MemIterator.new addr).next16 c.memSlice with
  | some (v, _) => some v
  | none => none

/-- `Cpu::read_mem8`: direct indexing `self.mem[addr as usize]`. -/
def Cpu.read_mem8 (c : Cpu) (addr : Nat) : Option Nat :=
  c.memSlice.get addr

/-- `Cpu::write_mem32`: four direct byte stores at `addr` and
`addr.wrapping_add(1..3)` (u32 wrap), little-endian, no modulo. -/
def Cpu.write_mem32 (c : Cpu) (addr value : Nat) : Option Cpu := do
  let m0 ← memStore c.mem addr (value &&& 0xFF)
  let m1 ← memStore m0 (u32WrapAdd addr 1) ((value &&& 0xFF00) >>> 8)
  let m2 ← memStore m1 (u32WrapAdd addr 2) ((value &&& 0xFF0000) >>> 16)
  let m3 ← memStore m2 (u32WrapAdd addr 3) ((value &&& 0xFF000000) >>> 24)
  pure { c with mem := m3 }

/-- `Cpu::write_mem16`: two direct byte stores, little-endian. -/
def Cpu.write_mem16 (c : Cpu) (addr value : Nat) : Option Cpu := do
  let m0 ← memStore c.mem addr (value &&& 0xFF)
  let m1 ← memStore m0 (u32WrapAdd addr 1) ((value &&& 0xFF00) >>> 8)
  pure { c with mem := m1 }

/-- `Cpu::write_mem8`: one direct byte store. -/
def Cpu.write_mem8 (c : Cpu) (addr value : Nat) : Option Cpu := do
  let m0 ← memStore c.mem addr value
  pure { c with mem := m0 }

/-- `Cpu::do_move_instruction`. -/
def Cpu.do_move_instruction (c : Cpu) (move_instr : Move) : Option Cpu :=
  match move_instr with
  | .RegToReg reg_src reg_dst => some (c.set_reg32 reg_dst (c.get_reg reg_src))
  | .RegToMem32 reg_src addr => c.write_mem32 addr (c.get_reg reg_src)
  | .RegToMem16 reg_src addr => c.write_mem16 addr (c.get_reg reg_src &&& 0xFFFF)
  | .RegToMem8 reg_src addr => c.write_mem8 addr (c.get_reg reg_src &&& 0xFF)
  | .MemToReg32 addr reg_dst =>
      match c.read_mem32 addr with
      | some v => some (c.set_reg32 reg_dst v)
      | none => none
  | .MemToReg16 addr reg_dst =>
      match c.read_mem16 addr with
      | some v => some (c.set_reg16 reg_dst v)
      | none => none
  | .MemToReg8 addr reg_dst =>
      match c.read_mem8 addr with
      | some v => some (c.set_reg8 reg_dst v)
      | none => none
  | .MemToMem32 addr_src addr_dest =>
      match c.read_mem32 addr_src with
      | some v => c.write_mem32 addr_dest v
      | none => none
  | .MemToMem16 addr_src addr_dest =>
      match c.read_mem16 addr_src with
      | some v => c.write_mem16 addr_dest v
      | none => none
  | .MemToMem8 addr_src addr_dest =>
      match c.read_mem8 addr_src with
      | some v => c.write_mem8 addr_dest v
      | none => none

/-- `Cpu::do_instruction`: Halt does nothing, Move dispatches. -/
def Cpu.do_instruction (c : Cpu) (instr : Instruction) : Option Cpu :=
  match instr with
  | .Halt => some c
  | .Move move_instr => c.do_move_instruction move_instr

/-- `Cpu::cycle`: decode at IP; on success advance IP by `delta_ip` with
`wrapping_add`, then execute; on decode error only print (no mutation). -/
def Cpu.cycle (c : Cpu) : Option Cpu :=
  let ip := c.registers.instruction_pointer
  match Instruction.read (MemIterator.new ip) c.memSlice with
  | none => none
  | some (.error _) => some c
  | some (.ok parsed) =>
    let c1 : Cpu :=
      { c with registers.instruction_pointer :=
          u32WrapAdd c.registers.instruction_pointer parsed.delta_ip }
    c1.do_instruction parsed.instr

/-- `Register::Ip` check for an operand register. -/
def Register.isIp : Register → Bool
  | .Ip => true
  | _ => false

/-- Whether a decoded Move mentions the IP register as an operand. -/
def Move.usesIp : Move → Bool
  | .RegToReg s d => s.isIp || d.isIp
  | .RegToMem32 r _ => r.isIp
  | .RegToMem16 r _ => r.isIp
  | .RegToMem8 r _ => r.isIp
  | .MemToReg32 _ r => r.isIp
  | .MemToReg16 _ r => r.isIp
  | .MemToReg8 _ r => r.isIp
  | .MemToMem32 _ _ => false
  | .MemToMem16 _ _ => false
  | .MemToMem8 _ _ => false

/-- Whether a decoded instruction mentions the IP register. -/
def Instruction.usesIp : Instruction → Bool
  | .Halt => false
  | .Move mv => mv.usesIp

/-! Concrete fixtures used by the witness evaluations. -/

/-- All registers zero, flags empty. -/
def zeroRegs : CpuRegisters := ⟨0, 0, 0, 0, 0, ⟨0⟩⟩

/-- The 4-byte program `[0x1, 0x00, 0x00, 0x01]`: Move, reg-to-reg,
src = A, dst = B. -/
def regMoveBytes : Nat → Nat := fun i =>
  if i = 0 then 1 else if i = 3 then 1 else 0

/-- A machine with zeroed memory and `IP = 0xFFFFFFFF` (the fetch at that
IP wrap-checks to index 0, where the byte `0x0` = Halt sits). -/
def haltCpu : Cpu := ⟨{ zeroRegs with instruction_pointer := 0xFFFFFFFF }, fun _ => 0⟩

/-- A machine whose memory holds `[0x01,0x02,0x03,0x04]` at address 0 and
whose register A is preset to `0xFFFFFFFF`. -/
def memMoveCpu : Cpu :=
  ⟨{ zeroRegs with a := 0xFFFFFFFF },
   fun i => if i = 0 then 1 else if i = 1 then 2 else
            if i = 2 then 3 else if i = 3 then 4 else 0⟩

/-- A machine whose memory is filled with the byte `0x2`, an invalid
group value, so decoding at any IP fails. -/
def badGroupCpu : Cpu := ⟨zeroRegs, fun _ => 2⟩

/-- An empty slice used to instantiate decoder lemmas. -/
def emptySlice : MemSlice := ⟨0, fun _ => 0⟩

/-- `haltCpu` after the IP advance of a successful Halt decode. -/
def haltCpuStepped : Cpu :=
  { haltCpu with
    registers.instruction_pointer := u32WrapAdd haltCpu.registers.instruction_pointer 1 }

/-! ## Theorems -/

/-- In-bounds slice indexing returns the byte. -/
theorem memSlice_get_in (m : MemSlice) (i : Nat) (h : i < m.len) :
    m.get i = some (m.bytes i % 256) := by
  unfold MemSlice.get
  rw [if_pos h]

/-- Out-of-bounds slice indexing panics. -/
theorem memSlice_get_out (m : MemSlice) (i : Nat) (h : m.len ≤ i) :
    m.get i = none := by
  unfold MemSlice.get
  rw [if_neg (by omega)]

/-- A 4-byte cursor read that starts in bounds but runs past the end of
the slice panics: the wrap check happens only once, at the start. -/
theorem next32_oob (idx len t : Nat) (bytes : Nat → Nat)
    (h1 : idx < len) (h2 : len ≤ idx + 3) (h3 : idx + 3 < 2 ^ 64) :
    MemIterator.next32 ⟨idx, t⟩ ⟨len, bytes⟩ = none := by
  simp only [MemIterator.next32, usizeWrapAdd]
  rw [if_neg (by omega)]
  rw [Nat.mod_eq_of_lt (show idx + 0 < 2 ^ 64 by omega),
      Nat.mod_eq_of_lt (show idx + 1 < 2 ^ 64 by omega),
      Nat.mod_eq_of_lt (show idx + 2 < 2 ^ 64 by omega),
      Nat.mod_eq_of_lt (show idx + 3 < 2 ^ 64 by omega)]
  rcases Nat.lt_or_ge (idx + 1) len with hc1 | hc1
  · rcases Nat.lt_or_ge (idx + 2) len with hc2 | hc2
    · rw [memSlice_get_in _ _ (by show idx + 0 < len; omega),
          memSlice_get_in _ _ (by show idx + 1 < len; omega),
          memSlice_get_in _ _ (by show idx + 2 < len; omega),
          memSlice_get_out _ _ (by show len ≤ idx + 3; omega)]
    · rw [memSlice_get_in _ _ (by show idx + 0 < len; omega),
          memSlice_get_in _ _ (by show idx + 1 < len; omega),
          memSlice_get_out _ _ (by show len ≤ idx + 2; omega)]
  · rw [memSlice_get_in _ _ (by show idx + 0 < len; omega),
        memSlice_get_out _ _ (by show len ≤ idx + 1; omega)]

/-- C1: the program `[0x1,0x00,0x00,0x01]` decodes to `Move RegToReg(A,B)`
but with `delta_ip = 5`, not the claimed 4: `Move::read` receives the same
iterator that already consumed the group byte, so its `travelled()` is 4,
and `Instruction::read` adds 1 more for the group byte a second time. -/
theorem move_decode_delta_ip_eval :
    Instruction.read (MemIterator.new 0) ⟨4, regMoveBytes⟩ =
      some (.ok ⟨.Move (.RegToReg .A .B), 5⟩) := rfl

/-- C2: executing a Move that writes one byte to address `MEM_SIZE`
(= `0x10000000`, a legal `u32`) panics: `write_mem8` indexes
`mem[addr as usize]` directly, with no modulo by the memory length. -/
theorem write_mem_no_modulo_panics :
    ∀ c : Cpu, c.do_move_instruction (.RegToMem8 .A 0x10000000) = none := by
  intro c
  simp [Cpu.do_move_instruction, Cpu.write_mem8, memStore, MAX_MEM]

/-- Any register produced by `try_from_id` is a general-purpose register,
never IP. -/
theorem tryFromId_isIp (b : Nat) (r : Register)
    (h : Register.tryFromId b = .ok r) : r.isIp = false := by
  unfold Register.tryFromId at h
  split at h
  all_goals first
    | (injection h with h2; subst h2; rfl)
    | exact Except.noConfusion h

/-- No instruction assembled by the Move sub-decoder mentions IP. -/
theorem moveReadGroup_no_ip (g : Nat) (it : MemIterator) (m : MemSlice)
    (p : ParsedInstruction) (h : Move.readGroup g it m = some (.ok p)) :
    p.instr.usesIp = false := by
  unfold Move.readGroup at h
  split at h
  · -- shape 0: reg to reg
    split at h
    · exact Option.noConfusion h
    · rename_i osrc it1 heqa
      split at h
      · exact Option.noConfusion h
      · rename_i odst it2 heqb
        split at h
        · simp at h
        · rename_i r1 heq1
          split at h
          · simp at h
          · rename_i r2 heq2
            injection h with h3
            injection h3 with h4
            rw [← h4]
            simp [Instruction.usesIp, Move.usesIp,
                  tryFromId_isIp _ _ heq1, tryFromId_isIp _ _ heq2]
  · -- shape 1: reg to mem
    split at h
    · exact Option.noConfusion h
    · rename_i b it1 heqa
      split at h
      · simp at h
      · rename_i r1 heq1
        split at h
        · exact Option.noConfusion h
        · rename_i addr it2 heqb
          split at h <;>
            first
            | exact Option.noConfusion h
            | (injection h with h3; injection h3 with h4; rw [← h4];
               simp [Instruction.usesIp, Move.usesIp, tryFromId_isIp _ _ heq1])
  · -- shape 2: mem to reg
    split at h
    · exact Option.noConfusion h
    · rename_i addr it1 heqa
      split at h
      · exact Option.noConfusion h
      · rename_i b it2 heqb
        split at h
        · simp at h
        · rename_i r1 heq1
          split at h <;>
            first
            | exact Option.noConfusion h
            | (injection h with h3; injection h3 with h4; rw [← h4];
               simp [Instruction.usesIp, Move.usesIp, tryFromId_isIp _ _ heq1])
  · -- shape 3: mem to mem
    split at h
    · exact Option.noConfusion h
    · rename_i addr1 it1 heqa
      split at h
      · exact Option.noConfusion h
      · rename_i addr2 it2 heqb
        split at h <;>
          first
          | exact Option.noConfusion h
          | (injection h with h3; injection h3 with h4; rw [← h4];
             simp [Instruction.usesIp, Move.usesIp])
  · -- invalid shape byte: decode error
    simp at h

/-- No instruction produced by `Move::read` mentions IP. -/
theorem moveRead_no_ip (it : MemIterator) (m : MemSlice) (p : ParsedInstruction)
    (h : Move.read it m = some (.ok p)) : p.instr.usesIp = false := by
  unfold Move.read at h
  split at h
  · exact Option.noConfusion h
  · rename_i mg it1 heq
    exact moveReadGroup_no_ip mg it1 m p h

/-- No instruction produced by `Instruction::read` mentions IP. -/
theorem instructionRead_no_ip (it : MemIterator) (m : MemSlice)
    (p : ParsedInstruction) (h : Instruction.read it m = some (.ok p)) :
    p.instr.usesIp = false := by
  unfold Instruction.read at h
  split at h
  · exact Option.noConfusion h
  · rename_i gv it1 heq
    split at h
    · injection h with h3
      injection h3 with h4
      rw [← h4]
      rfl
    · split at h
      · exact Option.noConfusion h
      · simp at h
      · rename_i q heqm
        injection h with h3
        injection h3 with h4
        rw [← h4]
        exact moveRead_no_ip it1 m q heqm
    · simp at h

/-- C3: a cursor positioned at index `MEM_SIZE - 1` panics on `next32()`:
only the starting index is wrap-checked, so the read indexes
`mem[MEM_SIZE]` out of bounds instead of wrapping; it neither returns a
value nor advances `travelled`. -/
theorem cursor_next32_at_top_of_memory_panics :
    ∀ bytes : Nat → Nat,
      MemIterator.next32 ⟨MAX_MEM - 1, 0⟩ ⟨MAX_MEM, bytes⟩ = none :=
  fun bytes =>
    next32_oob (MAX_MEM - 1) MAX_MEM 0 bytes (by decide) (by decide) (by decide)

/-- C4: whenever decoding at the current IP returns an error, `cycle`
returns the machine state unchanged (IP, registers and memory all equal). -/
theorem cycle_decode_error_no_mutation :
    ∀ (c : Cpu) (e : String),
      Instruction.read (MemIterator.new c.registers.instruction_pointer) c.memSlice =
        some (.error e) →
      c.cycle = some c := by
  intro c e h
  simp only [Cpu.cycle]
  rw [h]

/-- C4 witness: a machine whose memory is all `0x2` bytes (invalid group)
really does hit the decode-error branch and is returned unchanged. -/
theorem cycle_decode_error_no_mutation_witness :
    badGroupCpu.cycle = some badGroupCpu :=
  cycle_decode_error_no_mutation badGroupCpu
    "Should have gotten a valid group value" rfl

/-- C5: whenever decoding at the current IP succeeds, `cycle` first sets
IP to the old IP plus `delta_ip` by wrapping 32-bit addition and then
executes the decoded instruction on that state; concretely, with
`IP = 0xFFFFFFFF` and a Halt byte fetched, one cycle yields `IP = 0`. -/
theorem cycle_advances_ip_and_executes :
    (∀ (c : Cpu) (p : ParsedInstruction),
      Instruction.read (MemIterator.new c.registers.instruction_pointer) c.memSlice =
        some (.ok p) →
      c.cycle = Cpu.do_instruction
        { c with registers.instruction_pointer :=
            u32WrapAdd c.registers.instruction_pointer p.delta_ip } p.instr) ∧
    (haltCpu.cycle).map (fun c => c.registers.instruction_pointer) = some 0 := by
  refine ⟨fun c p h => ?_, rfl⟩
  simp only [Cpu.cycle]
  rw [h]

/-- C5 witness: the Halt-at-`0xFFFFFFFF` machine satisfies the decode
hypothesis with `(Halt, delta_ip = 1)`. -/
theorem cycle_advances_ip_and_executes_witness :
    haltCpu.cycle = Cpu.do_instruction haltCpuStepped Instruction.Halt :=
  cycle_advances_ip_and_executes.1 haltCpu ⟨.Halt, 1⟩ rfl

/-- C6: an 8-bit register write of `v` reads back as
`(old & 0xFFFFFF00) | (v & 0xFF)`, a 16-bit write as
`(old & 0xFFFF0000) | (v & 0xFFFF)`; and the concrete mem-to-reg
width-16 Move from address 0 with `memory[0..4] = [1,2,3,4]` and
`A = 0xFFFFFFFF` leaves `A = 0xFFFF0201`. -/
theorem width_masked_register_writes :
    (∀ (c : Cpu) (reg : Register) (v : Nat),
      (c.set_reg8 reg (v &&& 0xFF)).get_reg reg =
        (c.get_reg reg &&& 0xFFFFFF00) ||| (v &&& 0xFF)) ∧
    (∀ (c : Cpu) (reg : Register) (v : Nat),
      (c.set_reg16 reg (v &&& 0xFFFF)).get_reg reg =
        (c.get_reg reg &&& 0xFFFF0000) ||| (v &&& 0xFFFF)) ∧
    (memMoveCpu.do_move_instruction (.MemToReg16 0 .A)).map (fun c => c.registers.a) =
      some 0xFFFF0201 := by
  refine ⟨fun c reg v => ?_, fun c reg v => ?_, rfl⟩
  · cases reg <;> rfl
  · cases reg <;> rfl

/-- C7: register-id bytes 0,1,2,3 decode to A,B,X,Y; every id of 4 and
above is an invalid-register-id decode error; consequently no decoded
instruction ever contains the IP register as an operand. -/
theorem register_id_decoding :
    (Register.tryFromId 0 = .ok .A) ∧ (Register.tryFromId 1 = .ok .B) ∧
    (Register.tryFromId 2 = .ok .X) ∧ (Register.tryFromId 3 = .ok .Y) ∧
    (∀ b, 4 ≤ b → ∃ e, Register.tryFromId b = .error e) ∧
    (∀ (it : MemIterator) (m : MemSlice) (p : ParsedInstruction),
      Instruction.read it m = some (.ok p) → p.instr.usesIp = false) := by
  refine ⟨rfl, rfl, rfl, rfl, fun b hb => ?_, instructionRead_no_ip⟩
  obtain ⟨k, rfl⟩ : ∃ k, b = k + 4 := ⟨b - 4, by omega⟩
  exact ⟨"Got invalid register id", rfl⟩

/-- C7 witness: id 7 is rejected, and the concretely decoded reg-to-reg
Move instruction does not mention IP. -/
theorem register_id_decoding_witness :
    (∃ e, Register.tryFromId 7 = .error e) ∧
    (⟨.Move (.RegToReg .A .B), 5⟩ : ParsedInstruction).instr.usesIp = false :=
  ⟨register_id_decoding.2.2.2.2.1 7 (by decide),
   register_id_decoding.2.2.2.2.2 (MemIterator.new 0) ⟨4, regMoveBytes⟩
     ⟨.Move (.RegToReg .A .B), 5⟩ rfl⟩

/-- C8: a move-group byte whose width field is 3 decodes exactly like the
same byte with the width field set to 2 (`mg - 16`): same instruction and
same `delta_ip`, for every shape, iterator state and memory; the modified
byte has width field 2 and the same shape and low bits. -/
theorem width_code_3_same_as_2 :
    ∀ (mg : Nat) (it : MemIterator) (m : MemSlice),
      mg < 256 → (mg &&& 0x30) >>> 4 = 3 →
      Move.readGroup mg it m = Move.readGroup (mg - 16) it m ∧
      ((mg - 16) &&& 0x30) >>> 4 = 2 ∧
      ((mg - 16) &&& 0xC0) >>> 6 = (mg &&& 0xC0) >>> 6 ∧
      ((mg - 16) &&& 0x0F) = (mg &&& 0x0F) := by
  intro mg it m hm hw
  interval_cases mg <;>
    first
    | exact absurd hw (by decide)
    | exact ⟨rfl, by decide, by decide, by decide⟩

/-- C8 witness: the reg-to-reg move-group byte `0x30` (shape 0, width 3)
decodes identically to `0x20` (width 2). -/
theorem width_code_3_same_as_2_witness :
    Move.readGroup 48 (MemIterator.new 0) emptySlice =
      Move.readGroup (48 - 16) (MemIterator.new 0) emptySlice ∧
    ((48 - 16) &&& 0x30) >>> 4 = 2 ∧
    ((48 - 16) &&& 0xC0) >>> 6 = (48 &&& 0xC0) >>> 6 ∧
    ((48 - 16) &&& 0x0F) = (48 &&& 0x0F) :=
  width_code_3_same_as_2 48 (MemIterator.new 0) emptySlice (by decide) (by decide)

/-- C9: executing Halt returns the state unchanged: no register (IP and
flags included) and no memory cell is mutated. -/
theorem halt_execute_no_mutation :
    ∀ c : Cpu, c.do_instruction .Halt = some c := fun _ => rfl

/-- C10: `Bitflag.contains` tests `(value & mask) != 0`, the compound
assignments update the stored value by `|`, `&`, `^`, and after `f |= m`
with `m ≠ 0` the flag `m` is contained. -/
theorem bitflag_contains_and_assign_ops :
    (∀ (f : Bitflag) (m : Nat), f.contains m = true ↔ f.value &&& m ≠ 0) ∧
    (∀ (f : Bitflag) (m : Nat), (f.orAssign m).value = f.value ||| m) ∧
    (∀ (f : Bitflag) (m : Nat), (f.andAssign m).value = f.value &&& m) ∧
    (∀ (f : Bitflag) (m : Nat), (f.xorAssign m).value = f.value ^^^ m) ∧
    (∀ (f : Bitflag) (m : Nat), m ≠ 0 → (f.orAssign m).contains m = true) := by
  refine ⟨fun f m => ?_, fun f m => rfl, fun f m => rfl, fun f m => rfl,
    fun f m hm => ?_⟩
  · simp [Bitflag.contains]
  · simp only [Bitflag.contains, Bitflag.orAssign, bne_iff_ne, ne_eq]
    intro h
    obtain ⟨i, hi⟩ := Nat.ne_zero_implies_bit_true hm
    have hbit : ((f.value ||| m) &&& m).testBit i = true := by
      simp [Nat.testBit_and, Nat.testBit_or, hi]
    rw [h] at hbit
    simp [Nat.zero_testBit] at hbit

/-- C10 witness: setting bit 1 via `|=` on an empty flag set makes
`contains 2` true. -/
theorem bitflag_contains_witness :
    (Bitflag.orAssign ⟨0⟩ 2).contains 2 = true :=
  bitflag_contains_and_assign_ops.2.2.2.2 ⟨0⟩ 2 (by decide)

end Nemu
